import Mathlib

/-
  Verification development for the battery voltage/current/capacity logger
  (src/Bat_Cap.py).  The Python floats are modelled by an inductive type
  `FVal` carrying an exact rational for finite values together with the two
  IEEE-754 non-finite classes that Python's `float` can produce on the code
  paths in question: signed infinity and NaN.  Rounding is idealised (finite
  arithmetic is exact rational arithmetic); NaN and infinity propagation
  follow IEEE-754, which is what Python's `float` implements.
-/

/-- Model of a Python `float` value: a finite value (exact rational),
a signed infinity (`pos = true` for `+inf`), or NaN. -/
inductive FVal where
  | num (q : ℚ)
  | inf (pos : Bool)
  | nan
deriving DecidableEq

/-- `true` exactly on NaN. -/
def FVal.isNan : FVal → Bool
  | .nan => true
  | _ => false

/-- `true` exactly on finite values. -/
def FVal.isFinite : FVal → Bool
  | .num _ => true
  | _ => false

/-- IEEE-754 equality test, modelling Python's `==` on floats: NaN compares
unequal to everything including itself; infinities compare equal when their
signs agree; finite values compare as rationals. -/
def feq : FVal → FVal → Bool
  | .num a, .num b => decide (a = b)
  | .inf s, .inf t => s == t
  | _, _ => false

/-- IEEE-754 multiplication, modelling Python's `*` on floats:
NaN propagates; `inf * 0 = NaN`; `inf * x` for nonzero finite `x` is an
infinity whose sign is the product of signs; finite products are exact. -/
def fmul : FVal → FVal → FVal
  | .nan, _ => .nan
  | _, .nan => .nan
  | .num a, .num b => .num (a * b)
  | .inf s, .num b => if b = 0 then .nan else .inf (s == decide (0 < b))
  | .num a, .inf t => if a = 0 then .nan else .inf (t == decide (0 < a))
  | .inf s, .inf t => .inf (s == t)

/-- IEEE-754 addition, modelling Python's `+` on floats: NaN propagates;
`inf + (-inf) = NaN`; an infinity absorbs finite addends. -/
def fadd : FVal → FVal → FVal
  | .nan, _ => .nan
  | _, .nan => .nan
  | .num a, .num b => .num (a + b)
  | .inf s, .num _ => .inf s
  | .num _, .inf t => .inf t
  | .inf s, .inf t => if s == t then .inf s else .nan

/-- Division by a positive finite constant, modelling Python's `x / c`
for the literal positive divisor `3600.0` used in the source: NaN
propagates, an infinity keeps its sign, finite division is exact.
(Only faithful for `0 < c`, which is the only way the source uses it.) -/
def fdivPos (x : FVal) (c : ℚ) : FVal :=
  match x with
  | .num a => .num (a / c)
  | .inf s => .inf s
  | .nan => .nan

/- ===== Model of `float(line.decode().strip())` (src/Bat_Cap.py line 45) =====
   Lines are modelled as their decoded character sequences; a byte sequence
   that fails to decode raises UnicodeDecodeError, a subclass of ValueError,
   so it behaves exactly like an unparseable string (the `except ValueError`
   catches it) and can be modelled as any unparseable character list. -/

/-- Whitespace test for the model of Python's `str.strip()`. -/
def isPySpace (c : Char) : Bool :=
  c == ' ' || c == '\t' || c == '\n' || c == '\r' || c == '\x0b' || c == '\x0c'

/-- Model of Python's `str.strip()`: drop leading and trailing whitespace. -/
def stripChars (cs : List Char) : List Char :=
  ((cs.dropWhile isPySpace).reverse.dropWhile isPySpace).reverse

/-- Consume an optional leading sign; `true` means non-negative. -/
def takeSign : List Char → Bool × List Char
  | '-' :: cs => (false, cs)
  | '+' :: cs => (true, cs)
  | cs => (true, cs)

/-- Consume a maximal run of decimal digits, returning the accumulated value,
the number of digits consumed, and the rest of the input. -/
def takeDigits : ℕ → ℕ → List Char → ℕ × ℕ × List Char
  | acc, n, [] => (acc, n, [])
  | acc, n, c :: cs =>
    if c.isDigit then takeDigits (10 * acc + (c.toNat - 48)) (n + 1) cs
    else (acc, n, c :: cs)

/-- Core of the model of CPython's `float(str)` constructor, on an
already-stripped, already-lowercased character list: an optional sign
followed by the keyword `nan`, the keywords `inf` / `infinity`, or a decimal
numeral with optional fractional part and optional exponent part.  (CPython
additionally allows underscore digit-group separators, which no claim
depends on and which are not modelled.)  `float("nan")` is NaN regardless of
sign; `float("inf")` is a signed infinity.  Any other input raises
ValueError, modelled as `none`. -/
def pyFloatChars (cs0 : List Char) : Option FVal :=
  let sc := takeSign cs0
  let pos := sc.1
  let cs := sc.2
  if cs = ['n', 'a', 'n'] then some .nan
  else if cs = ['i', 'n', 'f'] ∨ cs = ['i', 'n', 'f', 'i', 'n', 'i', 't', 'y'] then
    some (.inf pos)
  else
    let ipart := takeDigits 0 0 cs
    let fpart :=
      match ipart.2.2 with
      | '.' :: cs2 => takeDigits 0 0 cs2
      | cs2 => (0, 0, cs2)
    if ipart.2.1 + fpart.2.1 = 0 then none
    else
      let mant : ℚ := (ipart.1 : ℚ) + (fpart.1 : ℚ) / (10 : ℚ) ^ fpart.2.1
      match fpart.2.2 with
      | [] => some (.num (if pos then mant else -mant))
      | 'e' :: cs3 =>
        let esc := takeSign cs3
        let epart := takeDigits 0 0 esc.2
        if epart.2.1 = 0 ∨ epart.2.2 ≠ [] then none
        else
          let x : ℚ := mant * (if esc.1 then (10 : ℚ) ^ epart.1 else ((10 : ℚ) ^ epart.1)⁻¹)
          some (.num (if pos then x else -x))
      | _ => none

/-- Model of `float(line.decode().strip())` (src/Bat_Cap.py line 45):
strip surrounding whitespace, lowercase (CPython's float parsing is
case-insensitive), parse.  `none` models a raised ValueError. -/
def lineValue (line : List Char) : Option FVal :=
  pyFloatChars ((stripChars line).map Char.toLower)

/- ===== Model of get_valid_reading (src/Bat_Cap.py lines 35-50) ===== -/

/-- Duration of the `time.sleep(0.05)` taken after an empty `readline`
(src/Bat_Cap.py line 49), in seconds. -/
def sleepQuantum : ℚ := 1 / 20

/-- Model of the polling loop of `get_valid_reading` (src/Bat_Cap.py
lines 40-50) with explicit wall-clock accounting.  Each list element is one
`ser.readline()` call: its wall-clock duration in seconds paired with the
line it returned (`none` models an empty/falsy line).  The accumulated
`elapsed` plays the role of `time.time() - start_time`; the loop guard
`while (time.time() - start_time) < timeout` is checked before each poll.
A parse success returns the value immediately; a parse failure (`continue`)
re-enters the loop; an empty line adds the 0.05 s sleep and re-enters the
loop.  The result is `some (total_elapsed, returned_reading)`; `none` means
the supplied event list was exhausted while the loop was still running (the
model does not constrain what further polls would return). -/
def gvrRun (timeout : ℚ) : List (ℚ × Option (List Char)) → ℚ → Option (ℚ × Option FVal)
  | [], elapsed => if timeout ≤ elapsed then some (elapsed, none) else none
  | (d, ln) :: rest, elapsed =>
    if timeout ≤ elapsed then some (elapsed, none)
    else
      match ln with
      | some l =>
        match lineValue l with
        | some v => some (elapsed + d, some v)
        | none => gvrRun timeout rest (elapsed + d)
      | none => gvrRun timeout rest (elapsed + d + sleepQuantum)

/-- The value of the first line among the polled events that parses as a
float, ignoring empty lines and parse failures. -/
def firstParse (events : List (ℚ × Option (List Char))) : Option FVal :=
  (events.filterMap fun p => p.2.bind lineValue).head?

/- ===== Model of the main loop body (src/Bat_Cap.py lines 95-155) ===== -/

/-- Sampling interval in seconds (src/Bat_Cap.py line 27: `INTERVAL = 1`). -/
def INTERVAL : ℚ := 1

/-- The two console warnings of the fallback policy: "using last valid
value" (stale substitution) and "no ... reading available" (no data). -/
inductive Warn where
  | stale
  | nodata
deriving DecidableEq

/-- The per-channel fallback policy, exactly the code of src/Bat_Cap.py
lines 103-111 (voltage) and 118-126 (current), which are textually
identical up to the channel name:
if the reading is not None it becomes the effective value and the new
last-good value with no warning; otherwise a present last-good value is
substituted with a stale warning; otherwise the effective value is NaN,
last-good stays absent, and a no-data warning is printed.
Returns (effective_value, updated_last_good, warning). -/
def resolveChannel (reading : Option FVal) (last_good : Option FVal) :
    FVal × Option FVal × Option Warn :=
  match reading with
  | some v => (v, some v, none)
  | none =>
    match last_good with
    | some lv => (lv, some lv, some .stale)
    | none => (.nan, none, some .nodata)

/-- Energy increment of one cycle (src/Bat_Cap.py lines 133-136):
`(power * INTERVAL) / 3600.0` when `power == power`, else `0.0`. -/
def energy_increment_of (power : FVal) : FVal :=
  if feq power power then fdivPos (fmul power (.num INTERVAL)) 3600 else .num 0

/-- Capacity increment of one cycle (src/Bat_Cap.py lines 140-143):
`(current_reading * 1000 * INTERVAL) / 3600.0` when
`current_reading == current_reading`, else `0.0`. -/
def capacity_increment_of (current : FVal) : FVal :=
  if feq current current then
    fdivPos (fmul (fmul current (.num 1000)) (.num INTERVAL)) 3600
  else .num 0

/-- The mutable state of `main`'s loop (src/Bat_Cap.py lines 64-67). -/
structure LoopState where
  cumulative_energy_Wh : FVal
  cumulative_capacity_mAh : FVal
  last_valid_voltage : Option FVal
  last_valid_current : Option FVal
deriving DecidableEq

/-- The per-cycle quantities computed, printed and logged by one iteration
of the main loop. -/
structure CycleOut where
  voltage : FVal
  current : FVal
  power : FVal
  energy_increment : FVal
  capacity_increment : FVal
  voltage_warn : Option Warn
  current_warn : Option Warn
deriving DecidableEq

/-- One iteration of the main loop body (src/Bat_Cap.py lines 98-150),
given the results of the two `get_valid_reading` calls.  Note on line 129:
`power = voltage_reading * current_reading if voltage_reading is not None
and current_reading is not None else float("nan")` — at that point both
variables have been assigned a float on every path of lines 103-126, so the
`is not None` condition is always true and power is always the product. -/
def cycle (vr cr : Option FVal) (st : LoopState) : CycleOut × LoopState :=
  let rv := resolveChannel vr st.last_valid_voltage
  let rc := resolveChannel cr st.last_valid_current
  let voltage_reading := rv.1
  let current_reading := rc.1
  let power := fmul voltage_reading current_reading
  let einc := energy_increment_of power
  let cinc := capacity_increment_of current_reading
  (⟨voltage_reading, current_reading, power, einc, cinc, rv.2.2, rc.2.2⟩,
   ⟨fadd st.cumulative_energy_Wh einc, fadd st.cumulative_capacity_mAh cinc,
    rv.2.1, rc.2.1⟩)

/-- The state at process start (src/Bat_Cap.py lines 64-67): both
accumulators `0.0`, both last-good values `None`. -/
def initState : LoopState :=
  ⟨.num 0, .num 0, none, none⟩

/-- Iterate the loop body over a sequence of per-cycle reading pairs
(voltage reading, current reading). -/
def runCycles : List (Option FVal × Option FVal) → LoopState → LoopState
  | [], st => st
  | (vr, cr) :: rest, st => runCycles rest (cycle vr cr st).2

/-- Iterate the per-channel fallback policy alone over a sequence of
readings, collecting the effective value of every cycle and the final
last-good value. -/
def resolveSteps : List (Option FVal) → Option FVal → List FVal × Option FVal
  | [], last_good => ([], last_good)
  | r :: rs, last_good =>
    let out := resolveChannel r last_good
    let t := resolveSteps rs out.2.1
    (out.1 :: t.1, t.2)

/- ===== Model of the teardown block (src/Bat_Cap.py lines 161-168) ===== -/

/-- Environment behaviour at teardown: for each channel, whether the serial
object exists in `locals()`, whether it `is_open`, and whether the display
restore `write` and the `close` calls succeed (`false` models a raised
SerialException / OSError). -/
structure TeardownBehavior where
  vInLocals : Bool
  vIsOpen : Bool
  vWriteOk : Bool
  vCloseOk : Bool
  cInLocals : Bool
  cIsOpen : Bool
  cWriteOk : Bool
  cCloseOk : Bool

/-- Outcome of the teardown block: whether the restore/close sequence was
attempted (entered) for each channel, and whether an exception escaped the
`finally` block (there is no try/except inside it, so any raised call
aborts the rest of the block and propagates). -/
structure TeardownResult where
  vAttempted : Bool
  cAttempted : Bool
  exn : Bool
deriving DecidableEq

/-- The current-channel half of the teardown block (src/Bat_Cap.py
lines 165-167), reached only if the voltage half did not raise. -/
def tearCurrent (b : TeardownBehavior) (vAtt : Bool) : TeardownResult :=
  if b.cInLocals && b.cIsOpen then
    if b.cWriteOk then
      if b.cCloseOk then ⟨vAtt, true, false⟩ else ⟨vAtt, true, true⟩
    else ⟨vAtt, true, true⟩
  else ⟨vAtt, false, false⟩

/-- The whole `finally` block (src/Bat_Cap.py lines 161-168): the voltage
channel's guarded restore/close runs first; since no exception handler
surrounds it, a raised write or close propagates immediately and the
current channel's block is never reached. -/
def teardown (b : TeardownBehavior) : TeardownResult :=
  if b.vInLocals && b.vIsOpen then
    if b.vWriteOk then
      if b.vCloseOk then tearCurrent b true
      else ⟨true, false, true⟩
    else ⟨true, false, true⟩
  else tearCurrent b false

/-- Helpers for the monotonicity analysis: a reading option is absent or a
non-negative finite value. -/
def nonnegOpt : Option FVal → Bool
  | none => true
  | some (.num q) => decide (0 ≤ q)
  | some _ => false

/-- A float value is NaN or a non-negative finite value. -/
def nonnegF : FVal → Bool
  | .nan => true
  | .num q => decide (0 ≤ q)
  | .inf _ => false

/-
  ===== Theorems =====
-/

/-- Claim C1: per channel and per cycle, a non-None reading becomes the
effective value and the new last-good value with no warning; on a miss a
present last-good value is substituted unchanged with a stale warning;
otherwise the effective value is NaN, last-good stays absent, and a no-data
warning is emitted.  The loop body applies exactly this policy to each
channel independently, and a valid reading followed by `n` consecutive
misses yields that reading as the effective value of each of the `n`
cycles, with the last-good value unchanged throughout. -/
theorem fallback_policy_spec :
    (∀ (v : FVal) (last_good : Option FVal),
      resolveChannel (some v) last_good = (v, some v, none))
    ∧ (∀ lv : FVal, resolveChannel none (some lv) = (lv, some lv, some .stale))
    ∧ resolveChannel none none = (.nan, none, some .nodata)
    ∧ (∀ (vr cr : Option FVal) (st : LoopState),
        (cycle vr cr st).1.voltage = (resolveChannel vr st.last_valid_voltage).1
        ∧ (cycle vr cr st).2.last_valid_voltage
            = (resolveChannel vr st.last_valid_voltage).2.1
        ∧ (cycle vr cr st).1.voltage_warn
            = (resolveChannel vr st.last_valid_voltage).2.2
        ∧ (cycle vr cr st).1.current = (resolveChannel cr st.last_valid_current).1
        ∧ (cycle vr cr st).2.last_valid_current
            = (resolveChannel cr st.last_valid_current).2.1
        ∧ (cycle vr cr st).1.current_warn
            = (resolveChannel cr st.last_valid_current).2.2)
    ∧ (∀ (v : FVal) (n : ℕ),
        resolveSteps (List.replicate n none) (some v) = (List.replicate n v, some v)) := by
  refine ⟨fun v last_good => rfl, fun lv => rfl, rfl,
    fun vr cr st => ⟨rfl, rfl, rfl, rfl, rfl, rfl⟩, fun v n => ?_⟩
  induction n with
  | zero => rfl
  | succ n ih => simp [List.replicate_succ, resolveSteps, resolveChannel, ih]

/-- Claim C4 counterexample: the line `inf` parses (CPython
`float("inf")` succeeds), and in a cycle whose effective voltage is `+inf`
and effective current is the finite number 2, the computed power is `+inf`:
the effective inputs are not both finite, yet power is not NaN, refuting
the claim's "otherwise power = NaN" branch. -/
theorem power_inf_cex :
    lineValue ['i', 'n', 'f'] = some (.inf true)
    ∧ ((cycle (some (.inf true)) (some (.num 2)) initState).1.voltage).isFinite = false
    ∧ (cycle (some (.inf true)) (some (.num 2)) initState).1.power = .inf true
    ∧ (cycle (some (.inf true)) (some (.num 2)) initState).1.power ≠ .nan := by
  refine ⟨by decide, by decide, by decide, by decide⟩

/-- Claim C4 amended: the reported power is always the IEEE-754 product of
the two effective values, with no special-casing (the `is not None` guard
on source line 129 is always true).  When both effective values are finite
the power is their exact product, and a NaN on either side yields NaN; a
non-finite non-NaN effective value (an infinity, reachable via a parsed
`inf` line) propagates per IEEE-754 instead of producing NaN. -/
theorem power_amended :
    (∀ (vr cr : Option FVal) (st : LoopState),
      (cycle vr cr st).1.power
        = fmul (cycle vr cr st).1.voltage (cycle vr cr st).1.current)
    ∧ (∀ a b : ℚ, fmul (.num a) (.num b) = .num (a * b))
    ∧ (∀ x : FVal, fmul .nan x = .nan)
    ∧ (∀ x : FVal, fmul x .nan = .nan) := by
  refine ⟨fun vr cr st => rfl, fun a b => rfl, fun x => ?_, fun x => ?_⟩ <;>
    cases x <;> rfl

/-- Claim C2 counterexample: the line `inf` parses, and in a cycle whose
effective voltage is `+inf` and effective current is 2, the power is
non-finite (`+inf`) but passes the `power == power` test of source line
133, so the energy increment is `+inf`, not the claimed exact 0. -/
theorem energy_increment_inf_cex :
    lineValue ['i', 'n', 'f'] = some (.inf true)
    ∧ ((cycle (some (.inf true)) (some (.num 2)) initState).1.power).isFinite = false
    ∧ (cycle (some (.inf true)) (some (.num 2)) initState).1.energy_increment = .inf true
    ∧ (cycle (some (.inf true)) (some (.num 2)) initState).1.energy_increment ≠ .num 0 := by
  refine ⟨by decide, by decide, by decide, by decide⟩

/-- Claim C2 amended: every cycle adds exactly its energy increment to
`cumulative_energy_Wh`, and the increment is `power * INTERVAL / 3600`
whenever power is not NaN (so a NaN power contributes exactly 0 and never
poisons the total), but the guard is a NaN test, not a finiteness test: an
infinite power (reachable via a parsed `inf` line) contributes an infinite
increment rather than 0. -/
theorem energy_increment_amended :
    (∀ (vr cr : Option FVal) (st : LoopState),
      (cycle vr cr st).1.energy_increment
          = energy_increment_of (cycle vr cr st).1.power
        ∧ (cycle vr cr st).2.cumulative_energy_Wh
          = fadd st.cumulative_energy_Wh (cycle vr cr st).1.energy_increment)
    ∧ energy_increment_of .nan = .num 0
    ∧ (∀ q : ℚ, energy_increment_of (.num q) = .num (q * INTERVAL / 3600))
    ∧ energy_increment_of (.inf true) = .inf true := by
  refine ⟨fun vr cr st => ⟨rfl, rfl⟩, by decide, fun q => ?_, by decide⟩
  simp [energy_increment_of, feq, fmul, fdivPos]

/-- Claim C3 counterexample: the line `inf` parses, and in a cycle whose
effective current is `+inf` (not finite) the capacity increment is `+inf`,
not the claimed exact 0, because the guard on source line 140 is a NaN
test rather than a finiteness test. -/
theorem capacity_increment_inf_cex :
    lineValue ['i', 'n', 'f'] = some (.inf true)
    ∧ ((cycle (some (.num 2)) (some (.inf true)) initState).1.current).isFinite = false
    ∧ (cycle (some (.num 2)) (some (.inf true)) initState).1.capacity_increment = .inf true
    ∧ (cycle (some (.num 2)) (some (.inf true)) initState).1.capacity_increment ≠ .num 0 := by
  refine ⟨by decide, by decide, by decide, by decide⟩

/-- Claim C3 amended: every cycle adds exactly its capacity increment to
`cumulative_capacity_mAh`; the increment depends only on the current
channel's reading and fallback state (never on the voltage value or on
power), and equals `current * 1000 * INTERVAL / 3600` whenever the
effective current is not NaN (exactly 0 when it is NaN); an infinite
effective current contributes an infinite increment rather than 0. -/
theorem capacity_increment_amended :
    (∀ (vr vr' cr : Option FVal) (st : LoopState),
      (cycle vr cr st).1.capacity_increment
          = capacity_increment_of (resolveChannel cr st.last_valid_current).1
        ∧ (cycle vr cr st).1.capacity_increment
          = (cycle vr' cr st).1.capacity_increment
        ∧ (cycle vr cr st).2.cumulative_capacity_mAh
          = fadd st.cumulative_capacity_mAh (cycle vr cr st).1.capacity_increment)
    ∧ capacity_increment_of .nan = .num 0
    ∧ (∀ q : ℚ, capacity_increment_of (.num q) = .num (q * 1000 * INTERVAL / 3600))
    ∧ capacity_increment_of (.inf true) = .inf true := by
  refine ⟨fun vr vr' cr st => ⟨rfl, rfl, rfl⟩, by decide, fun q => ?_, by decide⟩
  simp [capacity_increment_of, feq, fmul, fdivPos]

/-- Claim C9 counterexample: with both channels present and open, if the
voltage channel's display-restore write raises, the `finally` block (which
has no per-channel exception handling) aborts: the current channel's
restore/close is never attempted and the exception propagates, refuting
both the independence and the non-fatality of teardown failures. -/
theorem teardown_cex :
    teardown ⟨true, true, false, true, true, true, true, true⟩
      = ⟨true, false, true⟩ := by
  decide

/-- Claim C9 amended: the voltage channel's teardown is attempted exactly
when that channel exists and is open, independently of anything about the
current channel (so a current-channel failure can never prevent the voltage
attempt, which runs first); but the current channel's teardown is attempted
only if the voltage channel's restore and close did not raise (or the
voltage block was skipped entirely), and any raised teardown call escapes
the `finally` block uncaught. -/
theorem teardown_amended :
    ∀ b : TeardownBehavior,
      (teardown b).vAttempted = (b.vInLocals && b.vIsOpen)
      ∧ (teardown b).cAttempted
        = ((!(b.vInLocals && b.vIsOpen) || (b.vWriteOk && b.vCloseOk))
            && (b.cInLocals && b.cIsOpen))
      ∧ (teardown b).exn
        = ((b.vInLocals && b.vIsOpen && (!b.vWriteOk || !b.vCloseOk))
            || ((!(b.vInLocals && b.vIsOpen) || (b.vWriteOk && b.vCloseOk))
                && (b.cInLocals && b.cIsOpen) && (!b.cWriteOk || !b.cCloseOk))) := by
  rintro ⟨v1, v2, v3, v4, c1, c2, c3, c4⟩
  revert v1 v2 v3 v4 c1 c2 c3 c4
  decide

/-- Claim C10: the line `nan` (and likewise `inf`) parses successfully —
CPython's `float` accepts these keywords — so the channel reader returns
NaN as a valid reading; the scheduler then stores it as the channel's
last-good value with no warning, and on a later miss NaN itself is
substituted with only a stale warning, never a no-data warning. -/
theorem nan_parsed_as_valid :
    lineValue ['n', 'a', 'n'] = some .nan
    ∧ lineValue ['i', 'n', 'f'] = some (.inf true)
    ∧ gvrRun (4 / 5) [(1 / 10, some ['n', 'a', 'n'])] 0 = some (1 / 10, some .nan)
    ∧ resolveChannel (some .nan) none = (.nan, some .nan, none)
    ∧ resolveChannel none (some .nan) = (.nan, some .nan, some .stale)
    ∧ (resolveChannel (some .nan) none).1.isFinite = false := by
  have hnan : lineValue ['n', 'a', 'n'] = some .nan := by decide
  refine ⟨by decide, by decide, ?_, by decide, by decide, by decide⟩
  norm_num [gvrRun, hnan]

/-- Helper: one constant-input cycle (voltage 10 V, current 0.1 A) adds
1/3600 Wh and 1/36 mAh to the accumulators and refreshes both last-good
values. -/
theorem aux_const_cycle (e c : ℚ) (lv lc : Option FVal) :
    (cycle (some (.num 10)) (some (.num (1 / 10))) ⟨.num e, .num c, lv, lc⟩).2
      = ⟨.num (e + 1 / 3600), .num (c + 1 / 36), some (.num 10), some (.num (1 / 10))⟩ := by
  simp only [cycle, resolveChannel, fmul, feq, fdivPos, fadd, energy_increment_of,
    capacity_increment_of, INTERVAL]
  norm_num

/-- Helper: running `T` constant-input cycles from any state with finite
accumulators adds `T/3600` Wh and `T/36` mAh. -/
theorem aux_const_run (T : ℕ) : ∀ (e c : ℚ) (lv lc : Option FVal),
    (runCycles (List.replicate T (some (.num 10), some (.num (1 / 10))))
        ⟨.num e, .num c, lv, lc⟩).cumulative_energy_Wh = .num (e + T * (1 / 3600))
    ∧ (runCycles (List.replicate T (some (.num 10), some (.num (1 / 10))))
        ⟨.num e, .num c, lv, lc⟩).cumulative_capacity_mAh = .num (c + T * (1 / 36)) := by
  induction T with
  | zero => intro e c lv lc; constructor <;> simp [runCycles]
  | succ T ih =>
    intro e c lv lc
    rw [List.replicate_succ]
    simp only [runCycles, aux_const_cycle]
    obtain ⟨h1, h2⟩ := ih (e + 1 / 3600) (c + 1 / 36) (some (.num 10)) (some (.num (1 / 10)))
    refine ⟨h1.trans ?_, h2.trans ?_⟩ <;> · congr 1; push_cast; ring

/-- Claim C6: with constant effective voltage 10 V and current 0.1 A at a
1 s interval, after `T` cycles the energy accumulator equals
`T * (10 * 0.1) / 3600` Wh and the capacity accumulator equals
`T * (0.1 * 1000) / 3600` mAh — exactly, in the idealised (exact-rational)
arithmetic of this model, hence in particular within floating-point
tolerance. -/
theorem constant_input_accumulators (T : ℕ) :
    (runCycles (List.replicate T (some (.num 10), some (.num (1 / 10))))
        initState).cumulative_energy_Wh = .num ((T : ℚ) * (10 * (1 / 10)) / 3600)
    ∧ (runCycles (List.replicate T (some (.num 10), some (.num (1 / 10))))
        initState).cumulative_capacity_mAh = .num ((T : ℚ) * ((1 / 10) * 1000) / 3600) := by
  obtain ⟨h1, h2⟩ := aux_const_run T 0 0 none none
  have hi : initState = ⟨.num 0, .num 0, none, none⟩ := rfl
  rw [hi]
  refine ⟨h1.trans ?_, h2.trans ?_⟩ <;> · congr 1; ring

/-- Helper: the fallback policy preserves non-negativity — from an absent or
non-negative reading and an absent or non-negative last-good value, the
effective value is NaN or non-negative and the updated last-good value is
absent or non-negative. -/
theorem aux_resolve_nonneg (r l : Option FVal) (hr : nonnegOpt r = true)
    (hl : nonnegOpt l = true) :
    nonnegF (resolveChannel r l).1 = true ∧ nonnegOpt (resolveChannel r l).2.1 = true := by
  rcases r with _ | v
  · rcases l with _ | w
    · exact ⟨rfl, rfl⟩
    · rcases w with q | b | _ <;> simp_all [resolveChannel, nonnegOpt, nonnegF]
  · rcases v with q | b | _ <;> simp_all [resolveChannel, nonnegOpt, nonnegF]

/-- Helper: the product of two NaN-or-non-negative values is NaN or
non-negative. -/
theorem aux_fmul_nonneg (a b : FVal) (ha : nonnegF a = true) (hb : nonnegF b = true) :
    nonnegF (fmul a b) = true := by
  rcases a with p | s | _ <;> rcases b with q | t | _ <;>
    simp_all [fmul, nonnegF]
  exact mul_nonneg ha hb

/-- Helper: a NaN-or-non-negative power yields a non-negative finite energy
increment. -/
theorem aux_einc_nonneg (p : FVal) (hp : nonnegF p = true) :
    ∃ q : ℚ, energy_increment_of p = .num q ∧ 0 ≤ q := by
  rcases p with q | s | _
  · refine ⟨q * INTERVAL / 3600, by simp [energy_increment_of, feq, fmul, fdivPos], ?_⟩
    have h0 : (0 : ℚ) ≤ q := by simpa [nonnegF] using hp
    have h1 : (0 : ℚ) ≤ INTERVAL := by norm_num [INTERVAL]
    exact div_nonneg (mul_nonneg h0 h1) (by norm_num)
  · simp [nonnegF] at hp
  · exact ⟨0, by simp [energy_increment_of, feq], le_refl 0⟩

/-- Helper: a NaN-or-non-negative effective current yields a non-negative
finite capacity increment. -/
theorem aux_cinc_nonneg (c : FVal) (hc : nonnegF c = true) :
    ∃ q : ℚ, capacity_increment_of c = .num q ∧ 0 ≤ q := by
  rcases c with q | s | _
  · refine ⟨q * 1000 * INTERVAL / 3600, by simp [capacity_increment_of, feq, fmul, fdivPos], ?_⟩
    have h0 : (0 : ℚ) ≤ q := by simpa [nonnegF] using hc
    have h1 : (0 : ℚ) ≤ INTERVAL := by norm_num [INTERVAL]
    exact div_nonneg (mul_nonneg (mul_nonneg h0 (by norm_num)) h1) (by norm_num)
  · simp [nonnegF] at hc
  · exact ⟨0, by simp [capacity_increment_of, feq], le_refl 0⟩

/-- Claim C5 counterexample: a single cycle with valid readings voltage 1 A
and current −1 A (a discharge direction reading, perfectly finite) makes
both accumulators strictly negative: the per-cycle increments are negative,
refuting monotone non-decrease over arbitrary cycle sequences. -/
theorem monotonicity_cex :
    runCycles [(some (.num 1), some (.num (-1)))] initState
      = ⟨.num (-(1 / 3600)), .num (-(5 / 18)), some (.num 1), some (.num (-1))⟩
    ∧ (-(1 / 3600) : ℚ) < 0 ∧ (-(5 / 18) : ℚ) < 0 := by
  refine ⟨?_, by norm_num, by norm_num⟩
  simp only [runCycles, cycle, initState, resolveChannel, fmul, feq, fdivPos, fadd,
    energy_increment_of, capacity_increment_of, INTERVAL]
  norm_num

/-- Claim C5 amended: the accumulators are monotonically non-decreasing
over any sequence of cycles in which every reading obtained is absent or a
non-negative finite number (and the starting last-good values are absent or
non-negative finite, as at process start): NaN power or current then
contributes a zero increment and all other increments are non-negative.
Without that restriction the claim fails — a negative finite reading gives
a negative increment, and an infinite reading gives an infinite one. -/
theorem accumulators_monotone (trace : List (Option FVal × Option FVal)) :
    ∀ (st : LoopState) (e c : ℚ),
      (∀ p ∈ trace, nonnegOpt p.1 = true ∧ nonnegOpt p.2 = true) →
      nonnegOpt st.last_valid_voltage = true →
      nonnegOpt st.last_valid_current = true →
      st.cumulative_energy_Wh = .num e →
      st.cumulative_capacity_mAh = .num c →
      ∃ e' c' : ℚ, (runCycles trace st).cumulative_energy_Wh = .num e'
        ∧ (runCycles trace st).cumulative_capacity_mAh = .num c'
        ∧ e ≤ e' ∧ c ≤ c' := by
  induction trace with
  | nil =>
    intro st e c _ _ _ he hc
    exact ⟨e, c, by simpa [runCycles] using he, by simpa [runCycles] using hc,
      le_refl e, le_refl c⟩
  | cons p rest ih =>
    rcases p with ⟨vr, cr⟩
    intro st e c htrace hlv hlc he hc
    obtain ⟨hv0, hv1⟩ := aux_resolve_nonneg vr st.last_valid_voltage
      (htrace _ (List.mem_cons_self _ _)).1 hlv
    obtain ⟨hc0, hc1⟩ := aux_resolve_nonneg cr st.last_valid_current
      (htrace _ (List.mem_cons_self _ _)).2 hlc
    have hpow := aux_fmul_nonneg _ _ hv0 hc0
    obtain ⟨qe, hqe, hqe0⟩ := aux_einc_nonneg _ hpow
    obtain ⟨qc, hqc, hqc0⟩ := aux_cinc_nonneg _ hc0
    have e1 : (cycle vr cr st).2.cumulative_energy_Wh = .num (e + qe) := by
      calc (cycle vr cr st).2.cumulative_energy_Wh
          = fadd st.cumulative_energy_Wh
              (energy_increment_of (fmul (resolveChannel vr st.last_valid_voltage).1
                (resolveChannel cr st.last_valid_current).1)) := rfl
        _ = .num (e + qe) := by rw [he, hqe]; rfl
    have c1 : (cycle vr cr st).2.cumulative_capacity_mAh = .num (c + qc) := by
      calc (cycle vr cr st).2.cumulative_capacity_mAh
          = fadd st.cumulative_capacity_mAh
              (capacity_increment_of (resolveChannel cr st.last_valid_current).1) := rfl
        _ = .num (c + qc) := by rw [hc, hqc]; rfl
    obtain ⟨e', c', H1, H2, H3, H4⟩ := ih (cycle vr cr st).2 (e + qe) (c + qc)
      (fun q hq => htrace q (List.mem_cons_of_mem _ hq)) hv1 hc1 e1 c1
    refine ⟨e', c', ?_, ?_, ?_, ?_⟩
    · simpa [runCycles] using H1
    · simpa [runCycles] using H2
    · exact le_trans (le_add_of_nonneg_right hqe0) H3
    · exact le_trans (le_add_of_nonneg_right hqc0) H4

/-- Witness for the amended monotonicity theorem at a concrete input: one
cycle of valid non-negative readings from the initial state. -/
theorem accumulators_monotone_witness :
    ∃ e' c' : ℚ,
      (runCycles [(some (.num 1), some (.num 1))] initState).cumulative_energy_Wh = .num e'
      ∧ (runCycles [(some (.num 1), some (.num 1))] initState).cumulative_capacity_mAh = .num c'
      ∧ (0 : ℚ) ≤ e' ∧ (0 : ℚ) ≤ c' :=
  accumulators_monotone [(some (.num 1), some (.num 1))] initState 0 0
    (by intro p hp; simp only [List.mem_singleton] at hp; subst hp; exact ⟨by decide, by decide⟩)
    (by decide) (by decide) rfl rfl

/-- Helper: from any start offset, a completed polling run returns either
the value of the first parseable line (and a non-None result), or None with
the deadline reached. -/
theorem aux_first_parse (timeout : ℚ) (events : List (ℚ × Option (List Char))) :
    ∀ (elapsed t : ℚ) (r : Option FVal),
      gvrRun timeout events elapsed = some (t, r) →
      (r ≠ none ∧ r = firstParse events) ∨ (r = none ∧ timeout ≤ t) := by
  induction events with
  | nil =>
    intro elapsed t r h
    simp only [gvrRun] at h
    by_cases hto : timeout ≤ elapsed
    · rw [if_pos hto] at h
      simp only [Option.some.injEq, Prod.mk.injEq] at h
      obtain ⟨rfl, rfl⟩ := h
      exact Or.inr ⟨rfl, hto⟩
    · rw [if_neg hto] at h
      exact absurd h (by simp)
  | cons p rest ih =>
    rcases p with ⟨d, ln⟩
    intro elapsed t r h
    simp only [gvrRun] at h
    by_cases hto : timeout ≤ elapsed
    · rw [if_pos hto] at h
      simp only [Option.some.injEq, Prod.mk.injEq] at h
      obtain ⟨rfl, rfl⟩ := h
      exact Or.inr ⟨rfl, hto⟩
    · rw [if_neg hto] at h
      rcases ln with _ | l
      · rcases ih _ _ _ h with ⟨hne, hfp⟩ | hright
        · exact Or.inl ⟨hne, hfp.trans (by simp [firstParse])⟩
        · exact Or.inr hright
      · cases hv : lineValue l with
        | some v =>
          simp only [hv, Option.some.injEq, Prod.mk.injEq] at h
          obtain ⟨rfl, rfl⟩ := h
          exact Or.inl ⟨by simp, by simp [firstParse, hv]⟩
        | none =>
          simp only [hv] at h
          rcases ih _ _ _ h with ⟨hne, hfp⟩ | hright
          · exact Or.inl ⟨hne, hfp.trans (by simp [firstParse, hv])⟩
          · exact Or.inr hright

/-- Claim C7: a completed channel read returns the float value of the first
line that parses (lines failing to parse, and empty polls, are discarded
while polling continues within the window), and returns the unavailable
sentinel (None) only once the `max_wait` deadline has been reached. -/
theorem reader_first_parse (timeout : ℚ) (events : List (ℚ × Option (List Char)))
    (t : ℚ) (r : Option FVal) (h : gvrRun timeout events 0 = some (t, r)) :
    (r ≠ none ∧ r = firstParse events) ∨ (r = none ∧ timeout ≤ t) :=
  aux_first_parse timeout events 0 t r h

/-- Witness for `reader_first_parse`: a malformed line followed by a
parseable one, inside a 0.8 s window, returns the parsed value. -/
theorem reader_first_parse_witness :
    ((some FVal.nan : Option FVal) ≠ none
        ∧ (some FVal.nan : Option FVal)
          = firstParse [(1 / 10, some ['j', 'u', 'n', 'k']), (1 / 10, some ['n', 'a', 'n'])])
    ∨ ((some FVal.nan : Option FVal) = none ∧ (4 / 5 : ℚ) ≤ 1 / 5) :=
  reader_first_parse (4 / 5) [(1 / 10, some ['j', 'u', 'n', 'k']), (1 / 10, some ['n', 'a', 'n'])]
    (1 / 5) (some .nan) (by
      have hj : lineValue ['j', 'u', 'n', 'k'] = none := by decide
      have hn : lineValue ['n', 'a', 'n'] = some .nan := by decide
      norm_num [gvrRun, hj, hn])

/-- Claim C8 counterexample: with `max_wait` 0.8 s, a malformed line taking
0.79 s leaves the deadline unexpired, so one more `readline` is issued; if
that poll runs the full 1 s serial timeout (plus the 0.05 s sleep), the call
returns only at 1.84 s — the total time inside the read exceeds `max_wait`,
because the wall-clock check bounds when the last poll may begin, not when
it ends. -/
theorem reader_time_cex :
    gvrRun (4 / 5) [(79 / 100, some ['j', 'u', 'n', 'k']), (1, none)] 0 = some (46 / 25, none)
    ∧ ¬((46 / 25 : ℚ) ≤ 4 / 5) := by
  have hj : lineValue ['j', 'u', 'n', 'k'] = none := by decide
  refine ⟨?_, by norm_num⟩
  norm_num [gvrRun, hj, sleepQuantum]

/-- Helper: a completed polling run started at offset `elapsed`, in which
every poll takes at most `D` seconds, finishes by
`max elapsed (timeout + D + sleepQuantum)`. -/
theorem aux_gvr_time (timeout D : ℚ) (events : List (ℚ × Option (List Char))) :
    ∀ (elapsed t : ℚ) (r : Option FVal),
      (∀ p ∈ events, 0 ≤ p.1 ∧ p.1 ≤ D) →
      gvrRun timeout events elapsed = some (t, r) →
      t ≤ max elapsed (timeout + D + sleepQuantum) := by
  induction events with
  | nil =>
    intro elapsed t r _ h
    simp only [gvrRun] at h
    by_cases hto : timeout ≤ elapsed
    · rw [if_pos hto] at h
      simp only [Option.some.injEq, Prod.mk.injEq] at h
      obtain ⟨rfl, rfl⟩ := h
      exact le_max_left _ _
    · rw [if_neg hto] at h
      exact absurd h (by simp)
  | cons p rest ih =>
    rcases p with ⟨d, ln⟩
    intro elapsed t r hdur h
    have hd := hdur (d, ln) (List.mem_cons_self _ _)
    have hdur' : ∀ p ∈ rest, 0 ≤ p.1 ∧ p.1 ≤ D :=
      fun q hq => hdur q (List.mem_cons_of_mem _ hq)
    have hsq : (0 : ℚ) ≤ sleepQuantum := by norm_num [sleepQuantum]
    simp only [gvrRun] at h
    by_cases hto : timeout ≤ elapsed
    · rw [if_pos hto] at h
      simp only [Option.some.injEq, Prod.mk.injEq] at h
      obtain ⟨rfl, rfl⟩ := h
      exact le_max_left _ _
    · rw [if_neg hto] at h
      push_neg at hto
      rcases ln with _ | l
      · have hrec := ih (elapsed + d + sleepQuantum) t r hdur' h
        have hb : elapsed + d + sleepQuantum ≤ timeout + D + sleepQuantum := by
          rcases hd with ⟨hd0, hdD⟩; linarith
        calc t ≤ max (elapsed + d + sleepQuantum) (timeout + D + sleepQuantum) := hrec
          _ = timeout + D + sleepQuantum := max_eq_right hb
          _ ≤ max elapsed (timeout + D + sleepQuantum) := le_max_right _ _
      · cases hv : lineValue l with
        | some v =>
          simp only [hv, Option.some.injEq, Prod.mk.injEq] at h
          obtain ⟨rfl, rfl⟩ := h
          have : elapsed + d ≤ timeout + D + sleepQuantum := by
            rcases hd with ⟨hd0, hdD⟩; linarith
          exact le_trans this (le_max_right _ _)
        | none =>
          simp only [hv] at h
          have hrec := ih (elapsed + d) t r hdur' h
          have hb : elapsed + d ≤ timeout + D + sleepQuantum := by
            rcases hd with ⟨hd0, hdD⟩; linarith
          calc t ≤ max (elapsed + d) (timeout + D + sleepQuantum) := hrec
            _ = timeout + D + sleepQuantum := max_eq_right hb
            _ ≤ max elapsed (timeout + D + sleepQuantum) := le_max_right _ _

/-- Claim C8 amended: the channel read never blocks indefinitely — if every
individual `readline` poll takes at most `D` seconds (the serial port's own
read timeout), a completed call started with a non-negative `max_wait`
window finishes within `max_wait + D + 0.05` seconds.  `max_wait` alone is
not a hard ceiling on the total time: it bounds when the final poll may
begin, and that poll plus the post-poll sleep may overrun the deadline by
up to `D + 0.05` seconds. -/
theorem reader_time_bound (timeout D : ℚ) (events : List (ℚ × Option (List Char)))
    (t : ℚ) (r : Option FVal) (h0 : 0 ≤ timeout) (hD : 0 ≤ D)
    (hdur : ∀ p ∈ events, 0 ≤ p.1 ∧ p.1 ≤ D)
    (hrun : gvrRun timeout events 0 = some (t, r)) :
    t ≤ timeout + D + sleepQuantum := by
  have hsq : (0 : ℚ) ≤ sleepQuantum := by norm_num [sleepQuantum]
  have hb : (0 : ℚ) ≤ timeout + D + sleepQuantum := by linarith
  have := aux_gvr_time timeout D events 0 t r hdur hrun
  simpa [max_eq_right hb] using this

/-- Witness for `reader_time_bound`: a single empty poll of one second
against a 0.8 s window finishes at 1.05 s, within the amended bound. -/
theorem reader_time_bound_witness :
    (21 / 20 : ℚ) ≤ 4 / 5 + 1 + sleepQuantum :=
  reader_time_bound (4 / 5) 1 [(1, none)] (21 / 20) none (by norm_num) (by norm_num)
    (by intro p hp; simp only [List.mem_singleton] at hp; subst hp; norm_num)
    (by norm_num [gvrRun, sleepQuantum])
